import Mathlib

/-!
Verification of docs_gh_pages/scripts/execute_notebooks.py.

Shallow embedding: the notebook document model, the NotebookConverter
operations (link, execute, convert, append, unexecute) and the batch driver
process_notebooks are translated as pure state transformers over an explicit
filesystem (an association list from paths to file data) together with an
event trace (log lines, executor calls, file writes/copies/removals).
External collaborators (the nbconvert cell executor, the re module search,
the sphinx_gallery script materializer) are parameters of the model.
-/

/-- A filesystem path, as the list of its components. -/
abbrev FsPath := List String

/-- Join a directory path with a file name (Path.joinpath). -/
def joinpath (d : FsPath) (n : String) : FsPath := d ++ [n]

/-- Render a path as a string, for log messages. -/
def pathStr (p : FsPath) : String := String.intercalate "/" p

/-- One notebook cell: source text plus its list of outputs. -/
structure Cell where
  source : String
  outputs : List String
  deriving DecidableEq, Repr

/-- The notebook metadata keys this program reads or writes: the
docs_executed lifecycle flag, and the nbsphinx execute=never override
written by append(). Other metadata keys are untouched by the program and
are not modelled. -/
structure Metadata where
  docs_executed : Option String
  nbsphinxExecuteNever : Bool
  deriving DecidableEq, Repr

/-- A notebook document: an ordered list of cells plus metadata. -/
structure Notebook where
  cells : List Cell
  metadata : Metadata
  deriving DecidableEq, Repr

/-- Contents of a file on disk. Notebook files carry a parsed Notebook;
link descriptor files carry the linked path (the JSON serialization and the
os.path.relpath computation are delegated externals); rst outputs record
which executed notebook they were exported from (rendering is delegated to
RSTExporter); anything else is opaque text. -/
inductive FileData where
  | nbFile (nb : Notebook)
  | linkFile (target : FsPath)
  | rstOutput (src : FsPath)
  | otherFile (s : String)
  deriving DecidableEq, Repr

/-- The filesystem: an association list from paths to file data, most
recent write first. -/
abbrev FS := List (FsPath × FileData)

/-- Look up a path. -/
def FS.get (fs : FS) (p : FsPath) : Option FileData :=
  match fs.find? (fun e => e.1 = p) with
  | some e => some e.2
  | none => none

/-- Write a file (create or overwrite). -/
def FS.set (fs : FS) (p : FsPath) (d : FileData) : FS := (p, d) :: fs

/-- Delete a file (os.remove). -/
def FS.del (fs : FS) (p : FsPath) : FS := fs.filter (fun e => e.1 ≠ p)

/-- Does a path exist. -/
def FS.exists (fs : FS) (p : FsPath) : Bool := (fs.get p).isSome

/-- shutil.copyfile: duplicate the contents of src under dst. -/
def FS.copyfile (fs : FS) (src dst : FsPath) : FS :=
  match fs.get src with
  | some d => fs.set dst d
  | none => fs

/-- Observable events of a run, in order: log lines, calls into the
external cell executor, file writes, copies and removals, the RST export
step of convert() and the colab write of append(). -/
inductive Event where
  | logInfo (msg : String)
  | logWarning (msg : String)
  | logError (msg : String)
  | executorCall
  | writeFile (p : FsPath)
  | copyFile (src dst : FsPath)
  | removeFile (p : FsPath)
  | exportRST (src : FsPath)
  | appendColab (p : FsPath)
  deriving DecidableEq, Repr

/-- Outcome of ExecutePreprocessor.preprocess on a notebook: either the
notebook with outputs populated, or a CellExecutionError carrying the
partially executed document (preprocess mutates in place before raising). -/
inductive ExecAttempt where
  | success (nb : Notebook)
  | cellError (nb : Notebook) (msg : String)

/-- The external cell executor, an opaque collaborator. -/
abbrev Executor := Notebook → ExecAttempt

/-- ClearOutputPreprocessor.preprocess: empty every cell output list. -/
def clearOutputs (nb : Notebook) : Notebook :=
  { nb with cells := nb.cells.map (fun c => { c with outputs := [] }) }

/-- nb.metadata.update with a docs_executed value. -/
def withFlag (nb : Notebook) (v : String) : Notebook :=
  { nb with metadata := { nb.metadata with docs_executed := some v } }

/-- Python truthiness of metadata.get of docs_executed: None and the empty
string are falsy, any other string truthy. -/
def pythonTruthy : Option String → Bool
  | none => false
  | some s => !(s == "")

/-- The characters strictly after the last dot of the list, when a dot
occurs. -/
def afterLastDot : List Char → Option (List Char)
  | [] => none
  | c :: rest =>
    match afterLastDot rest with
    | some e => some e
    | none => if c == '.' then some rest else none

/-- The characters strictly before the last dot of the list, when a dot
occurs. -/
def beforeLastDot : List Char → Option (List Char)
  | [] => none
  | c :: rest =>
    match beforeLastDot rest with
    | some e => some (c :: e)
    | none => if c == '.' then some [] else none

/-- Path.stem: the file name without its final extension (names with a
leading dot do not occur in this program and are not special-cased). -/
def stem (name : String) : String :=
  match beforeLastDot name.data with
  | some pre => String.mk pre
  | none => name

/-- os.path.splitext, extension part: final dot-suffix including the dot,
or the empty string (leading-dot names are not special-cased). -/
def extOf (name : String) : String :=
  match afterLastDot name.data with
  | some e => "." ++ String.mk e
  | none => ""

/-- Does the character list start with the pattern. -/
def listStartsWith : List Char → List Char → Bool
  | _, [] => true
  | [], _ :: _ => false
  | a :: as, b :: bs => a == b && listStartsWith as bs

/-- Does the character list contain the pattern as a contiguous run. -/
def listContainsSub (pat : List Char) : List Char → Bool
  | [] => pat.isEmpty
  | c :: rest => listStartsWith (c :: rest) pat || listContainsSub pat rest

/-- The Python in-operator on strings: substring containment. -/
def strContainsSub (s pat : String) : Bool := listContainsSub pat.data s.data

/-- The Python str.startswith check. -/
def strStartsWith (s pat : String) : Bool := listStartsWith s.data pat.data

/-- The in-check of the walker on a full path: since the marker contains no
path separator, a substring of the joined path string is exactly a
substring of one of its components. -/
def pathHasCheckpointMarker (p : FsPath) : Bool :=
  p.any (fun comp => strContainsSub comp "ipynb_checkpoints")

/-- The keyword arguments process_notebooks forwards to the
NotebookConverter constructor. rst_template and kernel_name only shape
delegated behaviour (template styling, kernel choice) and carry through
unused by the modelled logic. -/
structure ConverterKwargs where
  output_path : Option FsPath
  rst_template : Option FsPath
  colab_template : Option FsPath
  overwrite : Bool
  kernel_name : Option String
  deriving DecidableEq, Repr

/-- Default keyword arguments of the constructor. -/
def ConverterKwargs.default : ConverterKwargs :=
  { output_path := none, rst_template := none, colab_template := none,
    overwrite := true, kernel_name := none }

/-- The fixed notebooks_external links directory (derived from the script
file location, Path of file parent.parent joined with notebooks_external). -/
def nbLinkDir : FsPath := ["docs_gh_pages", "notebooks_external"]

/-- The NotebookConverter binding: all the derived paths and configuration
computed by the constructor from the notebook path and keyword arguments. -/
structure NotebookConverter where
  nb_path : FsPath
  nb_link_path : FsPath
  nb : String
  nb_dir : FsPath
  nb_name : String
  overwrite : Bool
  output_path : FsPath
  rst_template : Option FsPath
  colab_template : Option FsPath
  colab_nb_path : FsPath
  executed_nb_path : FsPath
  temp_nb_path : FsPath
  kernel_name : String
  timeout : Nat
  allow_errors : Bool
  deriving DecidableEq, Repr

/-- The constructor, mirroring NotebookConverter.__init__: split the path
into directory and name, default the output directory to the notebook
directory, and derive the colab, executed and temporary write paths.
temp_nb_path is only assigned in overwrite mode in the source; here it
holds the same executed-prefixed value and is only consulted in overwrite
mode. -/
def NotebookConverter.make (nb_dir : FsPath) (nbName : String)
    (kw : ConverterKwargs) : NotebookConverter :=
  let outp := kw.output_path.getD nb_dir
  { nb_path := joinpath nb_dir nbName
    nb_link_path := nbLinkDir
    nb := nbName
    nb_dir := nb_dir
    nb_name := stem nbName
    overwrite := kw.overwrite
    output_path := outp
    rst_template := kw.rst_template
    colab_template := kw.colab_template
    colab_nb_path := joinpath outp ("colab_" ++ nbName)
    executed_nb_path :=
      if kw.overwrite then joinpath outp nbName
      else joinpath outp ("executed_" ++ nbName)
    temp_nb_path := joinpath outp ("executed_" ++ nbName)
    kernel_name := kw.kernel_name.getD "python3"
    timeout := 900
    allow_errors := false }

/-- NotebookConverter.link: write the .nblink descriptor for this notebook
into the fixed links directory (descriptor payload is the notebook path;
the relative-path computation and JSON form are delegated to os.path and
json.dump). -/
def NotebookConverter.link (c : NotebookConverter) (fs : FS) :
    FS × List Event :=
  let link_save_path := joinpath c.nb_link_path (c.nb_name ++ ".nblink")
  (fs.set link_save_path (FileData.linkFile c.nb_path),
   [Event.writeFile link_save_path])

/-- The write-back tail of NotebookConverter.execute: in overwrite mode
write the executed notebook to the temporary path, copy it over the
canonical path, then remove the temporary file; otherwise write directly
to the executed-prefixed path. -/
def NotebookConverter.writeExecuted (c : NotebookConverter) (fs : FS)
    (nb : Notebook) : FS × List Event :=
  if c.overwrite then
    let fs1 := fs.set c.temp_nb_path (FileData.nbFile nb)
    let fs2 := fs1.copyfile c.temp_nb_path c.executed_nb_path
    let fs3 := fs2.del c.temp_nb_path
    (fs3, [Event.writeFile c.temp_nb_path,
           Event.copyFile c.temp_nb_path c.executed_nb_path,
           Event.removeFile c.temp_nb_path])
  else
    (fs.set c.executed_nb_path (FileData.nbFile nb),
     [Event.writeFile c.executed_nb_path])

/-- The notebook document written back by the run branch of execute: the
executor result (success document, or the partially executed document the
CellExecutionError carries) with the docs_executed flag set to executed
or errored respectively. -/
def execOutcomeNb : ExecAttempt → Notebook
  | ExecAttempt.success nb2 => withFlag nb2 "executed"
  | ExecAttempt.cellError nb2 _ => withFlag nb2 "errored"

/-- The log lines the run branch of execute emits for the executor
outcome: nothing on success, the two error lines on CellExecutionError. -/
def execOutcomeEvents (c : NotebookConverter) : ExecAttempt → List Event
  | ExecAttempt.success _ => []
  | ExecAttempt.cellError _ msg =>
    [Event.logError ("Error executing notebook " ++ c.nb), Event.logError msg]

/-- The run branch of NotebookConverter.execute (the else of the skip
check): clear all outputs, call the external executor, flag the outcome,
catch and log a CellExecutionError, and write the result notebook per the
write policy. -/
def NotebookConverter.executeRun (c : NotebookConverter) (ex : Executor)
    (nb : Notebook) (fs : FS) : FS × List Event :=
  let evHead := [Event.logInfo ("Executing notebook " ++ c.nb ++ " in " ++
    pathStr c.nb_dir), Event.executorCall]
  let att := ex (clearOutputs nb)
  let evWrite := Event.logInfo ("Writing executed notebook to " ++
    pathStr c.executed_nb_path)
  let wr := c.writeExecuted fs (execOutcomeNb att)
  (wr.1, evHead ++ execOutcomeEvents c att ++ [evWrite] ++ wr.2)

/-- NotebookConverter.execute: read the notebook; if its docs_executed
flag reads executed and force is false, log a skip and do nothing else;
otherwise run the executeRun branch. Returns none when the source file is
absent or not a notebook (the unmodelled open/parse crash). -/
def NotebookConverter.execute (c : NotebookConverter) (ex : Executor)
    (force : Bool) (fs : FS) : Option (FS × List Event × FsPath) :=
  match fs.get c.nb_path with
  | some (FileData.nbFile nb) =>
    let is_executed := nb.metadata.docs_executed
    if is_executed = some "executed" && !force then
      some (fs,
        [Event.logInfo ("Notebook " ++ c.nb ++ " in " ++ pathStr c.nb_dir ++
          " already executed, skipping")],
        c.executed_nb_path)
    else
      let run := c.executeRun ex nb fs
      some (run.1, run.2, c.executed_nb_path)
  | _ => none

/-- NotebookConverter.convert: raise IOError when the executed notebook is
absent; otherwise export it to RST (delegated to RSTExporter and
FilesWriter, recorded as an exportRST event and an rstOutput file next to
the notebook stem). -/
def NotebookConverter.convert (c : NotebookConverter) (fs : FS) :
    Except String (FS × List Event × FsPath) :=
  if !(fs.exists c.executed_nb_path) then
    Except.error ("Executed notebook file doesn't exist! Expected: " ++
      pathStr c.executed_nb_path)
  else
    let out := [c.nb_name ++ ".rst"]
    Except.ok (fs.set out (FileData.rstOutput c.executed_nb_path),
      [Event.logInfo "Exporting executed notebook to RST format",
       Event.exportRST c.executed_nb_path],
      out)

/-- NotebookConverter.append: with no colab template configured, warn and
return nothing; otherwise read template and source notebook, build the
cloud notebook (first source cell, then all template cells, then the
remaining source cells, with the nbsphinx execute=never override), write
it to the colab path and return that path. The subscript of the first cell
raises IndexError on an empty cell list, modelled as none, as is a missing
or non-notebook template or source file. -/
def NotebookConverter.append (c : NotebookConverter) (fs : FS) :
    Option (FS × List Event × Option FsPath) :=
  match c.colab_template with
  | none =>
    some (fs, [Event.logWarning "No colab template specified, skipping this step"],
      none)
  | some tpath =>
    match fs.get tpath, fs.get c.nb_path with
    | some (FileData.nbFile tpl), some (FileData.nbFile nb) =>
      match nb.cells with
      | [] => none
      | c0 :: rest =>
        let colab_nb : Notebook :=
          { cells := c0 :: (tpl.cells ++ rest)
            metadata := { nb.metadata with nbsphinxExecuteNever := true } }
        some (fs.set c.colab_nb_path (FileData.nbFile colab_nb),
          [Event.appendColab c.colab_nb_path, Event.writeFile c.colab_nb_path],
          some c.colab_nb_path)
    | _, _ => none

/-- NotebookConverter.unexecute: log; if the executed path is absent, warn
and stop; otherwise read it, pop the docs_executed key when its value is
truthy, clear all outputs, and write the file back in place. none models
the unmodelled parse crash on a non-notebook file. -/
def NotebookConverter.unexecute (c : NotebookConverter) (fs : FS) :
    Option (FS × List Event) :=
  let ev0 := Event.logInfo ("Cleaning up notebook " ++ c.nb ++ " in " ++
    pathStr c.nb_dir)
  if !(fs.exists c.executed_nb_path) then
    some (fs, [ev0, Event.logWarning (pathStr c.executed_nb_path ++
      " not found, nothing to clean")])
  else
    match fs.get c.executed_nb_path with
    | some (FileData.nbFile nb) =>
      let nb1 :=
        if pythonTruthy nb.metadata.docs_executed then
          { nb with metadata := { nb.metadata with docs_executed := none } }
        else nb
      let nb2 := clearOutputs nb1
      some (fs.set c.executed_nb_path (FileData.nbFile nb2),
        [ev0, Event.writeFile c.executed_nb_path])
    | _ => none

/-- The re.search collaborator of the filename filter: given the pattern
and the candidate name, does the pattern occur. Regular-expression
semantics are delegated to the re module; the model only relies on it
being a function of pattern and name. -/
abbrev PatternMatcher := String → String → Bool

/-- sphinx_gallery.notebook.replace_py_ipynb name derivation: swap the
final .py for .ipynb. Modelled from the spec: the deterministic
name-derivation rule owned by the external gallery-conversion service. -/
def replacePyIpynb (s : String) : String :=
  String.mk (s.data.take (s.data.length - 3)) ++ ".ipynb"

/-- The gallery materializer collaborator behind
NotebookConverter.py_to_ipynb: the notebook document produced from a
literate script at a given path (including the mayavi initialization
injection, which happens inside the delegated construction). -/
abbrev Materializer := FsPath → Notebook

/-- The classification a walked file receives from the if-chain of
process_notebooks, first match wins: checkpoint marker anywhere in the
full path, then the reserved exec name prefix, then the reserved colab
name prefix, then the .rst extension, then the .ipynb extension with the
filename-filter verdict, then the .py extension with the verdict, else no
action. -/
inductive FileClass where
  | checkpoint
  | execArtifact
  | colabArtifact
  | rstArtifact
  | notebookSrc (matched : Bool)
  | pyScript (matched : Bool)
  | untouched
  deriving DecidableEq, Repr

/-- The walker's per-file classification, read off the if/continue chain
of process_notebooks in source order. -/
def classify (matcher : PatternMatcher) (filename_pattern : String)
    (root : FsPath) (name : String) : FileClass :=
  if pathHasCheckpointMarker (joinpath root name) then FileClass.checkpoint
  else if strStartsWith name "exec" then FileClass.execArtifact
  else if strStartsWith name "colab" then FileClass.colabArtifact
  else if extOf name = ".rst" then FileClass.rstArtifact
  else if extOf name = ".ipynb" then
    FileClass.notebookSrc (matcher filename_pattern name)
  else if extOf name = ".py" then
    FileClass.pyScript (matcher filename_pattern name)
  else FileClass.untouched

/-- The per-notebook dispatch of the walker's .ipynb branch: construct the
converter, then link() when link was requested, then execute(force) when
execute was requested, then unexecute() when cleanup was requested (the
source guards this last call on cleanup alone, despite its comment). -/
def ipynbDispatch (ex : Executor)
    (execute force link cleanup : Bool) (kw : ConverterKwargs)
    (root : FsPath) (name : String) (fs : FS) : Option (FS × List Event) :=
  let nbc := NotebookConverter.make root name kw
  let (fs1, ev1) := if link then nbc.link fs else (fs, [])
  match (if execute then (nbc.execute ex force fs1).map
            (fun r => (r.1, r.2.1))
         else some (fs1, [])) with
  | none => none
  | some (fs2, ev2) =>
    match (if cleanup then nbc.unexecute fs2 else some (fs2, [])) with
    | none => none
    | some (fs3, ev3) => some (fs3, ev1 ++ ev2 ++ ev3)

/-- The .py branch of the walker: if the derived notebook already exists,
skip under execute (it was, or will be, processed by the .ipynb branch)
and delete it under cleanup; otherwise materialize the notebook besides
the script and run link/execute on it (no unexecute in this branch). -/
def pyDispatch (ex : Executor) (mat : Materializer)
    (execute force link cleanup : Bool) (kw : ConverterKwargs)
    (root : FsPath) (name : String) (fs : FS) : Option (FS × List Event) :=
  let full_path := joinpath root name
  let ipy_path := joinpath root (replacePyIpynb name)
  if fs.exists ipy_path then
    if execute then some (fs, [])
    else if cleanup then some (fs.del ipy_path, [Event.removeFile ipy_path])
    else some (fs, [])
  else
    let fs1 := fs.set ipy_path (FileData.nbFile (mat full_path))
    let nbc := NotebookConverter.make root (replacePyIpynb name) kw
    let (fs2, ev2) := if link then nbc.link fs1 else (fs1, [])
    match (if execute then (nbc.execute ex force fs2).map
              (fun r => (r.1, r.2.1))
           else some (fs2, [])) with
    | none => none
    | some (fs3, ev3) =>
      some (fs3, Event.writeFile ipy_path :: (ev2 ++ ev3))

/-- One file of the directory walk: classify, then apply the matching
action. Checkpoint files, exec- and colab-prefixed files and .rst files
are deleted under cleanup and skipped otherwise; matched notebooks go to
the .ipynb dispatch; matched scripts to the .py dispatch; everything else
is untouched. -/
def walkStep (matcher : PatternMatcher) (ex : Executor) (mat : Materializer)
    (execute force link cleanup : Bool) (filename_pattern : String)
    (kw : ConverterKwargs) (root : FsPath) (name : String) (fs : FS) :
    Option (FS × List Event) :=
  let full_path := joinpath root name
  let delOrSkip : Option (FS × List Event) :=
    if cleanup then some (fs.del full_path, [Event.removeFile full_path])
    else some (fs, [])
  match classify matcher filename_pattern root name with
  | FileClass.checkpoint => delOrSkip
  | FileClass.execArtifact => delOrSkip
  | FileClass.colabArtifact => delOrSkip
  | FileClass.rstArtifact => delOrSkip
  | FileClass.notebookSrc matched =>
    if matched then ipynbDispatch ex execute force link cleanup kw root name fs
    else some (fs, [])
  | FileClass.pyScript matched =>
    if matched then pyDispatch ex mat execute force link cleanup kw root name fs
    else some (fs, [])
  | FileClass.untouched => some (fs, [])

/-- The directory walk: fold walkStep over the enumerated (root, name)
pairs, threading the filesystem and concatenating traces. -/
def runWalk (matcher : PatternMatcher) (ex : Executor) (mat : Materializer)
    (execute force link cleanup : Bool) (filename_pattern : String)
    (kw : ConverterKwargs) : List (FsPath × String) → FS →
    Option (FS × List Event)
  | [], fs => some (fs, [])
  | (root, name) :: rest, fs =>
    match walkStep matcher ex mat execute force link cleanup
        filename_pattern kw root name fs with
    | none => none
    | some (fs1, ev1) =>
      match runWalk matcher ex mat execute force link cleanup
          filename_pattern kw rest fs1 with
      | none => none
      | some (fs2, ev2) => some (fs2, ev1 ++ ev2)

/-- The argument of process_notebooks: either a directory (its os.walk
enumeration of files, as root-directory and file-name pairs) or a single
notebook file path split into directory and name. -/
inductive NbInput where
  | dir (files : List (FsPath × String))
  | file (nb_dir : FsPath) (name : String)

/-- process_notebooks: on a directory, walk it per walkStep; on a single
file, construct one converter and call execute(force) when execute was
requested, else unexecute() when cleanup was requested and execute was
not. The rst and colab parameters are accepted and never consulted. -/
def process_notebooks (matcher : PatternMatcher) (ex : Executor)
    (mat : Materializer) (input : NbInput)
    (execute force link cleanup : Bool) (filename_pattern : String)
    (rst colab : Bool) (kw : ConverterKwargs) (fs : FS) :
    Option (FS × List Event) :=
  match input with
  | NbInput.dir files =>
    runWalk matcher ex mat execute force link cleanup filename_pattern kw
      files fs
  | NbInput.file d n =>
    let nbc := NotebookConverter.make d n kw
    if execute then
      (nbc.execute ex force fs).map (fun r => (r.1, r.2.1))
    else if !execute && cleanup then
      nbc.unexecute fs
    else
      some (fs, [])

/-- Events that only convert() or append() can emit. -/
def isConvertOrAppendEv : Event → Bool
  | Event.exportRST _ => true
  | Event.appendColab _ => true
  | _ => false

/-- Sample metadata of a never-processed notebook, for concrete runs. -/
def freshMeta : Metadata := { docs_executed := none, nbsphinxExecuteNever := false }

/-- A sample one-cell unexecuted notebook. -/
def sampleNb : Notebook :=
  { cells := [{ source := "x = 1", outputs := [] }], metadata := freshMeta }

/-- A sample notebook already flagged as executed. -/
def executedNb : Notebook :=
  { cells := [{ source := "x = 1", outputs := [] }],
    metadata := { docs_executed := some "executed", nbsphinxExecuteNever := false } }

/-- A sample filesystem holding one unexecuted notebook at d/a.ipynb. -/
def sampleFS : FS := [(["d", "a.ipynb"], FileData.nbFile sampleNb)]

/-- A sample filesystem holding one already-executed notebook. -/
def executedFS : FS := [(["d", "a.ipynb"], FileData.nbFile executedNb)]

/-- A sample colab template cell. -/
def tplCell : Cell := { source := "pip install ibllib", outputs := [] }

/-- A sample colab template notebook. -/
def tplNb : Notebook := { cells := [tplCell], metadata := freshMeta }

/-- A sample filesystem holding the template and the source notebook. -/
def colabFS : FS :=
  [(["t", "tpl.ipynb"], FileData.nbFile tplNb),
   (["d", "a.ipynb"], FileData.nbFile sampleNb)]

/-- Keyword arguments configuring the sample colab template. -/
def colabKw : ConverterKwargs :=
  { ConverterKwargs.default with colab_template := some ["t", "tpl.ipynb"] }

/-- A sample executor that fails every run with a CellExecutionError. -/
def failExecutor : Executor := fun nb => ExecAttempt.cellError nb "cell failed"

/-- A sample executor that populates one output on every cell. -/
def outExecutor : Executor := fun nb =>
  ExecAttempt.success
    { nb with cells := nb.cells.map (fun c => { c with outputs := ["out"] }) }

/-! Helper lemmas about the filesystem model and derived paths. -/

theorem FS.get_set_self (fs : FS) (p : FsPath) (d : FileData) :
    (fs.set p d).get p = some d := by
  simp [FS.set, FS.get, List.find?]

theorem FS.get_set_ne (fs : FS) (p q : FsPath) (d : FileData) (h : q ≠ p) :
    (fs.set p d).get q = fs.get q := by
  simp [FS.set, FS.get, List.find?, Ne.symm h]

theorem FS.get_del_self (fs : FS) (p : FsPath) : (fs.del p).get p = none := by
  induction fs with
  | nil => simp [FS.del, FS.get, List.find?]
  | cons e rest ih =>
    by_cases he : e.1 = p
    · simpa [FS.del, FS.get, he] using ih
    · simpa [FS.del, FS.get, List.find?, he] using ih

theorem FS.get_cons (e : FsPath × FileData) (rest : FS) (q : FsPath) :
    FS.get (e :: rest) q = if e.1 = q then some e.2 else FS.get rest q := by
  by_cases he : e.1 = q <;> simp [FS.get, List.find?, he]

theorem FS.del_cons (e : FsPath × FileData) (rest : FS) (p : FsPath) :
    FS.del (e :: rest) p =
      if e.1 = p then FS.del rest p else e :: FS.del rest p := by
  by_cases he : e.1 = p <;> simp [FS.del, List.filter, he]

theorem FS.get_del_ne (fs : FS) (p q : FsPath) (h : q ≠ p) :
    (fs.del p).get q = fs.get q := by
  induction fs with
  | nil => rfl
  | cons e rest ih =>
    rw [FS.del_cons, FS.get_cons]
    by_cases he : e.1 = p
    · rw [if_pos he, if_neg (by rw [he]; exact fun hh => h hh.symm)]
      exact ih
    · rw [if_neg he, FS.get_cons]
      by_cases hq : e.1 = q
      · rw [if_pos hq, if_pos hq]
      · rw [if_neg hq, if_neg hq]
        exact ih

theorem executed_prefix_ne (n : String) : ("executed_" ++ n) ≠ n := by
  intro h
  have h2 : ("executed_" ++ n).data.length = n.data.length :=
    congrArg (fun s => s.data.length) h
  rw [String.data_append, List.length_append] at h2
  have h9 : "executed_".data.length = 9 := rfl
  omega

theorem concat_ne_of_last_ne (d1 d2 : FsPath) (a b : String) (h : a ≠ b) :
    d1 ++ [a] ≠ d2 ++ [b] := by
  intro he
  have h1 := congrArg List.getLast? he
  rw [List.getLast?_concat, List.getLast?_concat] at h1
  exact h (Option.some.inj h1)

/-- The executed notebook written by writeExecuted is retrievable in full
at the canonical executed path, in either write mode, as long as the
temporary path differs from the canonical one in overwrite mode. -/
theorem writeExecuted_get (c : NotebookConverter) (fs : FS) (nb : Notebook)
    (hne : c.overwrite = true → c.temp_nb_path ≠ c.executed_nb_path) :
    (c.writeExecuted fs nb).1.get c.executed_nb_path =
      some (FileData.nbFile nb) := by
  by_cases ho : c.overwrite
  · have hne' := hne ho
    simp only [NotebookConverter.writeExecuted, ho, if_true]
    rw [FS.get_del_ne _ _ _ (Ne.symm hne')]
    unfold FS.copyfile
    rw [FS.get_set_self, FS.get_set_self]
  · have hov : c.overwrite = false := by simpa using ho
    simp [NotebookConverter.writeExecuted, hov, FS.get_set_self]

/-- In a converter built by the constructor with overwrite configured, the
temporary write path differs from the canonical executed path. -/
theorem make_temp_ne_executed (d : FsPath) (n : String) (kw : ConverterKwargs)
    (ho : (NotebookConverter.make d n kw).overwrite = true) :
    (NotebookConverter.make d n kw).temp_nb_path ≠
      (NotebookConverter.make d n kw).executed_nb_path := by
  have ho' : kw.overwrite = true := ho
  simp only [NotebookConverter.make, joinpath, ho', if_true]
  exact concat_ne_of_last_ne _ _ _ _ (executed_prefix_ne n)

/-! Claim theorems. -/

/-- Claim C1: for every notebook whose persisted docs_executed metadata
key reads executed, execute(force=false) leaves the filesystem exactly as
it was, emits no executor call and no write, copy or removal — its whole
trace is the single skip log line — and still returns the executed path. -/
theorem execute_skip_is_noop (c : NotebookConverter) (ex : Executor)
    (fs : FS) (nb : Notebook)
    (hread : fs.get c.nb_path = some (FileData.nbFile nb))
    (hflag : nb.metadata.docs_executed = some "executed") :
    c.execute ex false fs = some (fs,
      [Event.logInfo ("Notebook " ++ c.nb ++ " in " ++ pathStr c.nb_dir ++
        " already executed, skipping")],
      c.executed_nb_path) := by
  simp [NotebookConverter.execute, hread, hflag]

/-- Witness for C1 at a concrete already-executed notebook. -/
theorem execute_skip_is_noop_witness :
    (NotebookConverter.make ["d"] "a.ipynb" ConverterKwargs.default).execute
      ExecAttempt.success false executedFS = some (executedFS,
      [Event.logInfo ("Notebook " ++ "a.ipynb" ++ " in " ++ pathStr ["d"] ++
        " already executed, skipping")],
      (NotebookConverter.make ["d"] "a.ipynb"
        ConverterKwargs.default).executed_nb_path) :=
  execute_skip_is_noop _ _ _ executedNb (by rfl) rfl

/-- Claim C7: whenever the expected executed-notebook path is absent from
the filesystem, convert() returns the Missing-Artifact IOError and nothing
else: no export event is emitted and no file is touched (the error result
carries no trace and no filesystem). In particular this covers convert()
before any execute() on a fresh non-overwrite notebook, whose executed
path carries the executed prefix and does not exist yet (the witness). -/
theorem convert_missing_artifact (c : NotebookConverter) (fs : FS)
    (h : fs.exists c.executed_nb_path = false) :
    c.convert fs = Except.error
      ("Executed notebook file doesn't exist! Expected: " ++
        pathStr c.executed_nb_path) := by
  simp [NotebookConverter.convert, h]

/-- Witness for C7: a fresh notebook, converter configured without
overwrite-in-place, no execute() run: convert() fails. -/
theorem convert_missing_artifact_witness :
    (NotebookConverter.make ["d"] "a.ipynb"
      { ConverterKwargs.default with overwrite := false }).convert sampleFS
    = Except.error ("Executed notebook file doesn't exist! Expected: " ++
        pathStr (NotebookConverter.make ["d"] "a.ipynb"
          { ConverterKwargs.default with overwrite := false }).executed_nb_path) :=
  convert_missing_artifact _ _ (by rfl)

/-! Lemmas about the run branch of execute. -/

/-- The skip condition of execute is false exactly when the notebook is
not flagged executed or force is set. -/
theorem runCondFalse (o : Option String) (force : Bool)
    (h : ¬(o = some "executed" ∧ force = false)) :
    (decide (o = some "executed") && !force) = false := by
  by_cases hp : o = some "executed"
  · have hf : force = true := by
      by_contra hff
      exact h ⟨hp, by simpa using hff⟩
    simp [hp, hf]
  · simp [hp]

/-- When the skip condition fails, execute takes the run branch. -/
theorem execute_eq_run (c : NotebookConverter) (ex : Executor) (force : Bool)
    (fs : FS) (nb : Notebook)
    (hread : fs.get c.nb_path = some (FileData.nbFile nb))
    (hcond : (decide (nb.metadata.docs_executed = some "executed") && !force)
      = false) :
    c.execute ex force fs = some ((c.executeRun ex nb fs).1,
      (c.executeRun ex nb fs).2, c.executed_nb_path) := by
  simp only [NotebookConverter.execute, hread, hcond]
  simp

theorem executeRun_fst (c : NotebookConverter) (ex : Executor)
    (nb : Notebook) (fs : FS) :
    (c.executeRun ex nb fs).1 =
      (c.writeExecuted fs (execOutcomeNb (ex (clearOutputs nb)))).1 := rfl

theorem executeRun_snd (c : NotebookConverter) (ex : Executor)
    (nb : Notebook) (fs : FS) :
    (c.executeRun ex nb fs).2 =
      [Event.logInfo ("Executing notebook " ++ c.nb ++ " in " ++
        pathStr c.nb_dir), Event.executorCall] ++
      execOutcomeEvents c (ex (clearOutputs nb)) ++
      [Event.logInfo ("Writing executed notebook to " ++
        pathStr c.executed_nb_path)] ++
      (c.writeExecuted fs (execOutcomeNb (ex (clearOutputs nb)))).2 := rfl

/-- The write-back trace holds only file events, never a log line. -/
theorem writeExecuted_snd_no_logError (c : NotebookConverter) (fs : FS)
    (nb : Notebook) (m : String) :
    Event.logError m ∉ (c.writeExecuted fs nb).2 := by
  by_cases ho : c.overwrite <;> simp [NotebookConverter.writeExecuted, ho]

/-- Claim C2: when execute actually runs a notebook, a CellExecutionError
raised by the executor never propagates: execute returns normally, the
docs_executed flag of the document written in full to the executed path is
errored, and the failure is logged; on a successful run the flag written
is executed and no error line is logged. -/
theorem execute_error_caught (d : FsPath) (n : String) (kw : ConverterKwargs)
    (c : NotebookConverter) (ex : Executor) (force : Bool) (fs : FS)
    (nb : Notebook)
    (hc : c = NotebookConverter.make d n kw)
    (hread : fs.get c.nb_path = some (FileData.nbFile nb))
    (hrun : ¬(nb.metadata.docs_executed = some "executed" ∧ force = false)) :
    (∀ nbE msg, ex (clearOutputs nb) = ExecAttempt.cellError nbE msg →
      ∃ fs1 evs, c.execute ex force fs = some (fs1, evs, c.executed_nb_path) ∧
        fs1.get c.executed_nb_path =
          some (FileData.nbFile (withFlag nbE "errored")) ∧
        Event.logError ("Error executing notebook " ++ c.nb) ∈ evs ∧
        Event.logError msg ∈ evs) ∧
    (∀ nbS, ex (clearOutputs nb) = ExecAttempt.success nbS →
      ∃ fs1 evs, c.execute ex force fs = some (fs1, evs, c.executed_nb_path) ∧
        fs1.get c.executed_nb_path =
          some (FileData.nbFile (withFlag nbS "executed")) ∧
        ∀ m, Event.logError m ∉ evs) := by
  have hcond := runCondFalse _ _ hrun
  have heq := execute_eq_run c ex force fs nb hread hcond
  have hne : c.overwrite = true → c.temp_nb_path ≠ c.executed_nb_path := by
    subst hc
    exact make_temp_ne_executed d n kw
  constructor
  · intro nbE msg hex
    refine ⟨_, _, heq, ?_, ?_, ?_⟩
    · rw [executeRun_fst, hex]
      simp only [execOutcomeNb]
      exact writeExecuted_get c fs _ hne
    · rw [executeRun_snd, hex]
      simp [execOutcomeEvents]
    · rw [executeRun_snd, hex]
      simp [execOutcomeEvents]
  · intro nbS hex
    refine ⟨_, _, heq, ?_, ?_⟩
    · rw [executeRun_fst, hex]
      simp only [execOutcomeNb]
      exact writeExecuted_get c fs _ hne
    · intro m
      rw [executeRun_snd, hex]
      simp [execOutcomeEvents, writeExecuted_snd_no_logError]

/-- Witness for C2: a concrete failing run on a fresh notebook ends with
the errored flag on disk and the two logged error lines. -/
theorem execute_error_caught_witness :
    ∃ fs1 evs, (NotebookConverter.make ["d"] "a.ipynb"
        ConverterKwargs.default).execute failExecutor false sampleFS
      = some (fs1, evs, (NotebookConverter.make ["d"] "a.ipynb"
        ConverterKwargs.default).executed_nb_path) ∧
      fs1.get (NotebookConverter.make ["d"] "a.ipynb"
          ConverterKwargs.default).executed_nb_path
        = some (FileData.nbFile (withFlag (clearOutputs sampleNb) "errored")) ∧
      Event.logError ("Error executing notebook " ++
        (NotebookConverter.make ["d"] "a.ipynb" ConverterKwargs.default).nb)
        ∈ evs ∧
      Event.logError "cell failed" ∈ evs :=
  (execute_error_caught ["d"] "a.ipynb" ConverterKwargs.default _ failExecutor
    false sampleFS sampleNb rfl (by rfl) (by decide)).1
    (clearOutputs sampleNb) "cell failed" rfl

/-- Claim C5: when execute writes its result with overwrite-in-place
configured, the tail of its trace is exactly write-to-temporary,
copy-over-canonical, delete-temporary, the temporary file is gone
afterwards and the canonical path holds the full result document; without
overwrite-in-place it writes directly to the executed-prefixed copy and
the original source notebook file is unchanged. -/
theorem execute_write_policy (d : FsPath) (n : String) (kw : ConverterKwargs)
    (c : NotebookConverter) (ex : Executor) (force : Bool) (fs : FS)
    (nb : Notebook)
    (hc : c = NotebookConverter.make d n kw)
    (hread : fs.get c.nb_path = some (FileData.nbFile nb))
    (hrun : ¬(nb.metadata.docs_executed = some "executed" ∧ force = false)) :
    ∃ fs1 evs pre nbOut,
      c.execute ex force fs = some (fs1, evs, c.executed_nb_path) ∧
      (c.overwrite = true →
        evs = pre ++ [Event.writeFile c.temp_nb_path,
          Event.copyFile c.temp_nb_path c.executed_nb_path,
          Event.removeFile c.temp_nb_path] ∧
        fs1.get c.temp_nb_path = none ∧
        fs1.get c.executed_nb_path = some (FileData.nbFile nbOut)) ∧
      (c.overwrite = false →
        c.executed_nb_path = joinpath c.output_path ("executed_" ++ n) ∧
        evs = pre ++ [Event.writeFile c.executed_nb_path] ∧
        fs1.get c.executed_nb_path = some (FileData.nbFile nbOut) ∧
        fs1.get c.nb_path = fs.get c.nb_path) := by
  have hcond := runCondFalse _ _ hrun
  have heq := execute_eq_run c ex force fs nb hread hcond
  have hne : c.overwrite = true → c.temp_nb_path ≠ c.executed_nb_path := by
    subst hc
    exact make_temp_ne_executed d n kw
  have hpref : c.overwrite = false →
      c.executed_nb_path = joinpath c.output_path ("executed_" ++ n) := by
    subst hc
    intro ho
    have ho' : kw.overwrite = false := ho
    simp [NotebookConverter.make, joinpath, ho']
  have hnbne : c.overwrite = false → c.nb_path ≠ c.executed_nb_path := by
    subst hc
    intro ho
    have ho' : kw.overwrite = false := ho
    simp only [NotebookConverter.make, joinpath, ho', if_false]
    exact concat_ne_of_last_ne _ _ _ _ (Ne.symm (executed_prefix_ne n))
  refine ⟨(c.executeRun ex nb fs).1, (c.executeRun ex nb fs).2,
    [Event.logInfo ("Executing notebook " ++ c.nb ++ " in " ++
      pathStr c.nb_dir), Event.executorCall] ++
    execOutcomeEvents c (ex (clearOutputs nb)) ++
    [Event.logInfo ("Writing executed notebook to " ++
      pathStr c.executed_nb_path)],
    execOutcomeNb (ex (clearOutputs nb)), heq, ?_, ?_⟩
  · intro ho
    refine ⟨?_, ?_, ?_⟩
    · rw [executeRun_snd]
      simp [NotebookConverter.writeExecuted, ho]
    · rw [executeRun_fst]
      simp only [NotebookConverter.writeExecuted, ho, if_true]
      exact FS.get_del_self _ _
    · rw [executeRun_fst]
      exact writeExecuted_get c fs _ hne
  · intro ho
    have hov : ¬(c.overwrite = true) := by simp [ho]
    refine ⟨hpref ho, ?_, ?_, ?_⟩
    · rw [executeRun_snd]
      simp [NotebookConverter.writeExecuted, ho]
    · rw [executeRun_fst]
      exact writeExecuted_get c fs _ hne
    · rw [executeRun_fst]
      simp only [NotebookConverter.writeExecuted, ho]
      simp only [Bool.false_eq_true, if_false]
      exact FS.get_set_ne fs _ _ _ (hnbne ho)

/-- Witness for C5: a concrete run in the default overwrite mode. -/
theorem execute_write_policy_witness :
    ∃ fs1 evs pre nbOut,
      (NotebookConverter.make ["d"] "a.ipynb" ConverterKwargs.default).execute
        outExecutor false sampleFS = some (fs1, evs,
        (NotebookConverter.make ["d"] "a.ipynb"
          ConverterKwargs.default).executed_nb_path) ∧
      ((NotebookConverter.make ["d"] "a.ipynb"
          ConverterKwargs.default).overwrite = true →
        evs = pre ++ [Event.writeFile (NotebookConverter.make ["d"] "a.ipynb"
            ConverterKwargs.default).temp_nb_path,
          Event.copyFile (NotebookConverter.make ["d"] "a.ipynb"
            ConverterKwargs.default).temp_nb_path
            (NotebookConverter.make ["d"] "a.ipynb"
              ConverterKwargs.default).executed_nb_path,
          Event.removeFile (NotebookConverter.make ["d"] "a.ipynb"
            ConverterKwargs.default).temp_nb_path] ∧
        fs1.get (NotebookConverter.make ["d"] "a.ipynb"
          ConverterKwargs.default).temp_nb_path = none ∧
        fs1.get (NotebookConverter.make ["d"] "a.ipynb"
          ConverterKwargs.default).executed_nb_path
          = some (FileData.nbFile nbOut)) ∧
      ((NotebookConverter.make ["d"] "a.ipynb"
          ConverterKwargs.default).overwrite = false →
        (NotebookConverter.make ["d"] "a.ipynb"
          ConverterKwargs.default).executed_nb_path =
          joinpath (NotebookConverter.make ["d"] "a.ipynb"
            ConverterKwargs.default).output_path ("executed_" ++ "a.ipynb") ∧
        evs = pre ++ [Event.writeFile (NotebookConverter.make ["d"] "a.ipynb"
          ConverterKwargs.default).executed_nb_path] ∧
        fs1.get (NotebookConverter.make ["d"] "a.ipynb"
          ConverterKwargs.default).executed_nb_path
          = some (FileData.nbFile nbOut) ∧
        fs1.get (NotebookConverter.make ["d"] "a.ipynb"
          ConverterKwargs.default).nb_path
          = sampleFS.get (NotebookConverter.make ["d"] "a.ipynb"
            ConverterKwargs.default).nb_path) :=
  execute_write_policy ["d"] "a.ipynb" ConverterKwargs.default _ outExecutor
    false sampleFS sampleNb rfl (by rfl) (by decide)

/-- unexecute on a filesystem whose executed path holds a notebook: pop a
truthy docs_executed key, clear all outputs, write back in place. -/
theorem unexecute_present (c : NotebookConverter) (fs : FS) (nb : Notebook)
    (hget : fs.get c.executed_nb_path = some (FileData.nbFile nb)) :
    c.unexecute fs = some (fs.set c.executed_nb_path (FileData.nbFile
      (clearOutputs (if pythonTruthy nb.metadata.docs_executed then
        { nb with metadata := { nb.metadata with docs_executed := none } }
       else nb))),
      [Event.logInfo ("Cleaning up notebook " ++ c.nb ++ " in " ++
        pathStr c.nb_dir),
       Event.writeFile c.executed_nb_path]) := by
  have hex : fs.exists c.executed_nb_path = true := by
    simp [FS.exists, hget]
  simp [NotebookConverter.unexecute, hex, hget]

/-- The docs_executed value execute writes is always a truthy string. -/
theorem pythonTruthy_execOutcome (a : ExecAttempt) :
    pythonTruthy (execOutcomeNb a).metadata.docs_executed = true := by
  cases a <;> simp [execOutcomeNb, withFlag, pythonTruthy]

/-- Claim C6: on a notebook with no pre-existing outputs (and not already
flagged executed, so execute(force=false) actually runs), execute()
followed by unexecute() leaves a persisted document at the executed path
whose every cell has an empty output list and whose docs_executed key is
absent, whatever the executor returned. -/
theorem execute_then_unexecute_clears (d : FsPath) (n : String)
    (kw : ConverterKwargs) (c : NotebookConverter) (ex : Executor) (fs : FS)
    (nb : Notebook)
    (hc : c = NotebookConverter.make d n kw)
    (hread : fs.get c.nb_path = some (FileData.nbFile nb))
    (hout : ∀ cl ∈ nb.cells, cl.outputs = [])
    (hflag : nb.metadata.docs_executed ≠ some "executed") :
    ∃ fs1 evs p, c.execute ex false fs = some (fs1, evs, p) ∧
      ∃ fs2 evs2, c.unexecute fs1 = some (fs2, evs2) ∧
        ∃ nbF, fs2.get c.executed_nb_path = some (FileData.nbFile nbF) ∧
          (∀ cl ∈ nbF.cells, cl.outputs = []) ∧
          nbF.metadata.docs_executed = none := by
  have hcond : (decide (nb.metadata.docs_executed = some "executed") &&
      !false) = false := runCondFalse _ _ (fun hand => hflag hand.1)
  have heq := execute_eq_run c ex false fs nb hread hcond
  have hne : c.overwrite = true → c.temp_nb_path ≠ c.executed_nb_path := by
    subst hc
    exact make_temp_ne_executed d n kw
  have hget1 : (c.executeRun ex nb fs).1.get c.executed_nb_path =
      some (FileData.nbFile (execOutcomeNb (ex (clearOutputs nb)))) := by
    rw [executeRun_fst]
    exact writeExecuted_get c fs _ hne
  refine ⟨_, _, _, heq, _, _, unexecute_present c _ _ hget1, _,
    FS.get_set_self _ _ _, ?_, ?_⟩
  · rw [pythonTruthy_execOutcome, if_pos rfl]
    intro cl hcl
    simp only [clearOutputs, List.mem_map] at hcl
    obtain ⟨cl0, _, rfl⟩ := hcl
    rfl
  · rw [pythonTruthy_execOutcome, if_pos rfl]
    rfl

/-- Witness for C6: a concrete fresh notebook, an executor that populates
outputs; after execute then unexecute the persisted document has empty
outputs and no docs_executed key. -/
theorem execute_then_unexecute_clears_witness :
    ∃ fs1 evs p, (NotebookConverter.make ["d"] "a.ipynb"
        ConverterKwargs.default).execute outExecutor false sampleFS
      = some (fs1, evs, p) ∧
      ∃ fs2 evs2, (NotebookConverter.make ["d"] "a.ipynb"
          ConverterKwargs.default).unexecute fs1 = some (fs2, evs2) ∧
        ∃ nbF, fs2.get (NotebookConverter.make ["d"] "a.ipynb"
            ConverterKwargs.default).executed_nb_path
          = some (FileData.nbFile nbF) ∧
          (∀ cl ∈ nbF.cells, cl.outputs = []) ∧
          nbF.metadata.docs_executed = none :=
  execute_then_unexecute_clears ["d"] "a.ipynb" ConverterKwargs.default _
    outExecutor sampleFS sampleNb rfl (by rfl) (by decide) (by decide)

/-- Claim C9: append() with no cloud template configured only warns and
returns nothing; with a template configured it writes to the colab path a
notebook made of the first source cell, then every template cell, then the
remaining source cells, with the nbsphinx execute=never metadata override,
and returns the colab path. -/
theorem append_cloud_construction (c : NotebookConverter) (fs : FS) :
    (c.colab_template = none →
      c.append fs = some (fs,
        [Event.logWarning "No colab template specified, skipping this step"],
        none)) ∧
    (∀ tpath tpl nb c0 rest, c.colab_template = some tpath →
      fs.get tpath = some (FileData.nbFile tpl) →
      fs.get c.nb_path = some (FileData.nbFile nb) →
      nb.cells = c0 :: rest →
      c.append fs = some (fs.set c.colab_nb_path (FileData.nbFile
        { cells := c0 :: (tpl.cells ++ rest)
          metadata := { nb.metadata with nbsphinxExecuteNever := true } }),
        [Event.appendColab c.colab_nb_path, Event.writeFile c.colab_nb_path],
        some c.colab_nb_path)) := by
  constructor
  · intro h
    simp [NotebookConverter.append, h]
  · intro tpath tpl nb c0 rest h1 h2 h3 h4
    simp [NotebookConverter.append, h1, h2, h3, h4]

/-- Witness for C9: both branches at concrete inputs: no template
configured (warning, no path), and a configured template (cloud notebook
written, path returned). -/
theorem append_cloud_construction_witness :
    ((NotebookConverter.make ["d"] "a.ipynb"
        ConverterKwargs.default).append sampleFS = some (sampleFS,
      [Event.logWarning "No colab template specified, skipping this step"],
      none)) ∧
    ((NotebookConverter.make ["d"] "a.ipynb" colabKw).append colabFS
      = some (colabFS.set (NotebookConverter.make ["d"] "a.ipynb"
          colabKw).colab_nb_path (FileData.nbFile
          { cells := { source := "x = 1", outputs := [] } ::
              (tplNb.cells ++ [])
            metadata := { sampleNb.metadata with nbsphinxExecuteNever := true } }),
        [Event.appendColab (NotebookConverter.make ["d"] "a.ipynb"
            colabKw).colab_nb_path,
         Event.writeFile (NotebookConverter.make ["d"] "a.ipynb"
            colabKw).colab_nb_path],
        some (NotebookConverter.make ["d"] "a.ipynb" colabKw).colab_nb_path)) :=
  ⟨(append_cloud_construction _ sampleFS).1 rfl,
   (append_cloud_construction _ colabFS).2 ["t", "tpl.ipynb"] tplNb sampleNb
     { source := "x = 1", outputs := [] } [] rfl (by rfl) (by rfl) (by rfl)⟩

/-- Claim C3 (evaluation at the failing input): in the directory walk,
with both execute and cleanup requested, the .ipynb dispatch calls
unexecute() after execute() — the trace of one walked notebook contains
both the executor call and the cleaning-up log line — although the
comment and docstring of the source reserve unexecute() for runs where
execute was not requested. -/
theorem walk_cleanup_runs_even_with_execute :
    ∃ fs1 evs, walkStep (fun _ _ => true) outExecutor (fun _ => sampleNb)
        true false false true "" ConverterKwargs.default ["d"] "a.ipynb"
        sampleFS
      = some (fs1, evs) ∧
      Event.executorCall ∈ evs ∧
      Event.logInfo ("Cleaning up notebook " ++ "a.ipynb" ++ " in " ++
        pathStr ["d"]) ∈ evs :=
  ⟨[(["d", "a.ipynb"], FileData.nbFile
      { cells := [{ source := "x = 1", outputs := [] }],
        metadata := { docs_executed := none, nbsphinxExecuteNever := false } }),
    (["d", "a.ipynb"], FileData.nbFile
      { cells := [{ source := "x = 1", outputs := ["out"] }],
        metadata := { docs_executed := some "executed",
                      nbsphinxExecuteNever := false } }),
    (["d", "a.ipynb"], FileData.nbFile
      { cells := [{ source := "x = 1", outputs := [] }],
        metadata := { docs_executed := none, nbsphinxExecuteNever := false } })],
   [Event.logInfo "Executing notebook a.ipynb in d",
    Event.executorCall,
    Event.logInfo "Writing executed notebook to d/a.ipynb",
    Event.writeFile ["d", "executed_a.ipynb"],
    Event.copyFile ["d", "executed_a.ipynb"] ["d", "a.ipynb"],
    Event.removeFile ["d", "executed_a.ipynb"],
    Event.logInfo "Cleaning up notebook a.ipynb in d",
    Event.writeFile ["d", "a.ipynb"]],
   by decide, by decide, by decide⟩

/-- Claim C4 counterexample: with link requested, on the very same
notebook file, the single-file entry point and the one-file directory walk
disagree — the walk writes the .nblink descriptor, the single-file branch
never calls link(). -/
theorem single_file_vs_walk_cex :
    process_notebooks (fun _ _ => true) outExecutor (fun _ => sampleNb)
        (NbInput.file ["d"] "a.ipynb") false false true false "" false false
        ConverterKwargs.default sampleFS
      ≠ process_notebooks (fun _ _ => true) outExecutor (fun _ => sampleNb)
        (NbInput.dir [(["d"], "a.ipynb")]) false false true false "" false
        false ConverterKwargs.default sampleFS := by
  decide

/-- Claim C4 amended: the single-file entry point runs the walk's
per-notebook logic only in restricted form: it never calls link() and it
skips unexecute() when execute was also requested; so it coincides with
the one-file directory walk on a matched notebook name exactly when link
was not requested and execute and cleanup are not both requested. -/
theorem single_file_matches_walk (matcher : PatternMatcher) (ex : Executor)
    (mat : Materializer) (d : FsPath) (n : String)
    (execute force cleanup : Bool) (pattern : String) (rst colab : Bool)
    (kw : ConverterKwargs) (fs : FS)
    (hcp : pathHasCheckpointMarker (joinpath d n) = false)
    (hpx : strStartsWith n "exec" = false)
    (hco : strStartsWith n "colab" = false)
    (hext : extOf n = ".ipynb")
    (hm : matcher pattern n = true)
    (hnc : ¬(execute = true ∧ cleanup = true)) :
    process_notebooks matcher ex mat (NbInput.file d n) execute force false
        cleanup pattern rst colab kw fs
      = process_notebooks matcher ex mat (NbInput.dir [(d, n)]) execute force
        false cleanup pattern rst colab kw fs := by
  have hclass : classify matcher pattern d n = FileClass.notebookSrc true := by
    simp [classify, hcp, hpx, hco, hext, hm]
  by_cases he : execute = true
  · have hcl : cleanup = false := by
      cases hclv : cleanup
      · rfl
      · exact absurd ⟨he, hclv⟩ hnc
    subst he
    subst hcl
    simp only [process_notebooks, runWalk, walkStep, hclass, ipynbDispatch,
      if_true, if_false]
    cases hx : (NotebookConverter.make d n kw).execute ex force fs with
    | none => simp [hx]
    | some r => simp [hx]
  · have he' : execute = false := by simpa using he
    subst he'
    by_cases hcl : cleanup = true
    · subst hcl
      simp only [process_notebooks, runWalk, walkStep, hclass, ipynbDispatch]
      cases hu : (NotebookConverter.make d n kw).unexecute fs with
      | none => simp [hu]
      | some r => simp [hu]
    · have hcl' : cleanup = false := by simpa using hcl
      subst hcl'
      simp [process_notebooks, runWalk, walkStep, hclass, ipynbDispatch]

/-- Witness for the amended C4, at a concrete notebook with execute
requested and cleanup not requested. -/
theorem single_file_matches_walk_witness :
    process_notebooks (fun _ _ => true) outExecutor (fun _ => sampleNb)
        (NbInput.file ["d"] "a.ipynb") true false false false "" false false
        ConverterKwargs.default sampleFS
      = process_notebooks (fun _ _ => true) outExecutor (fun _ => sampleNb)
        (NbInput.dir [(["d"], "a.ipynb")]) true false false false "" false
        false ConverterKwargs.default sampleFS :=
  single_file_matches_walk (fun _ _ => true) outExecutor (fun _ => sampleNb)
    ["d"] "a.ipynb" true false false "" false false ConverterKwargs.default
    sampleFS (by decide) (by decide) (by decide) (by decide) rfl (by decide)

/-- Claim C8: the walker's classification is total (classify is a total
function into the seven classes) and first-match-wins along the precedence
order checkpoint marker, exec prefix, colab prefix, .rst extension, .ipynb
extension, .py extension; in particular a file named executed_foo.ipynb is
always classified by its exec prefix — deleted when cleanup was requested,
otherwise skipped — and never dispatched as a notebook source, whatever
the name filter. -/
theorem walker_first_match_precedence (matcher : PatternMatcher)
    (pattern : String) (root : FsPath) (name : String) (ex : Executor)
    (mat : Materializer) (execute force link cleanup : Bool)
    (kw : ConverterKwargs) (fs : FS) :
    (pathHasCheckpointMarker (joinpath root name) = true →
      classify matcher pattern root name = FileClass.checkpoint) ∧
    (pathHasCheckpointMarker (joinpath root name) = false →
      strStartsWith name "exec" = true →
      classify matcher pattern root name = FileClass.execArtifact) ∧
    (pathHasCheckpointMarker (joinpath root name) = false →
      strStartsWith name "exec" = false →
      strStartsWith name "colab" = true →
      classify matcher pattern root name = FileClass.colabArtifact) ∧
    (pathHasCheckpointMarker (joinpath root name) = false →
      strStartsWith name "exec" = false →
      strStartsWith name "colab" = false →
      extOf name = ".rst" →
      classify matcher pattern root name = FileClass.rstArtifact) ∧
    (pathHasCheckpointMarker (joinpath root name) = false →
      strStartsWith name "exec" = false →
      strStartsWith name "colab" = false →
      extOf name = ".ipynb" →
      classify matcher pattern root name =
        FileClass.notebookSrc (matcher pattern name)) ∧
    (pathHasCheckpointMarker (joinpath root name) = false →
      strStartsWith name "exec" = false →
      strStartsWith name "colab" = false →
      extOf name = ".py" →
      classify matcher pattern root name =
        FileClass.pyScript (matcher pattern name)) ∧
    (pathHasCheckpointMarker (joinpath root "executed_foo.ipynb") = false →
      walkStep matcher ex mat execute force link cleanup pattern kw root
          "executed_foo.ipynb" fs
        = if cleanup then
            some (fs.del (joinpath root "executed_foo.ipynb"),
              [Event.removeFile (joinpath root "executed_foo.ipynb")])
          else some (fs, [])) := by
  refine ⟨?_, ?_, ?_, ?_, ?_, ?_, ?_⟩
  · intro h
    simp [classify, h]
  · intro h1 h2
    simp [classify, h1, h2]
  · intro h1 h2 h3
    simp [classify, h1, h2, h3]
  · intro h1 h2 h3 h4
    simp [classify, h1, h2, h3, h4]
  · intro h1 h2 h3 h4
    simp [classify, h1, h2, h3, h4]
  · intro h1 h2 h3 h4
    have h5 : ¬(extOf name = ".rst") := by rw [h4]; decide
    have h6 : ¬(extOf name = ".ipynb") := by rw [h4]; decide
    simp [classify, h1, h2, h3, h4, h5, h6]
  · intro h1
    have hsw : strStartsWith "executed_foo.ipynb" "exec" = true := by decide
    have hclass : classify matcher pattern root "executed_foo.ipynb"
        = FileClass.execArtifact := by
      simp [classify, h1, hsw]
    simp [walkStep, hclass]

/-- Witness for C8: the concrete name executed_foo.ipynb at the directory
root with cleanup requested is deleted, not dispatched. -/
theorem walker_first_match_precedence_witness :
    walkStep (fun _ _ => true) outExecutor (fun _ => sampleNb) true false
        false true "" ConverterKwargs.default [] "executed_foo.ipynb" sampleFS
      = some (sampleFS.del (joinpath [] "executed_foo.ipynb"),
          [Event.removeFile (joinpath [] "executed_foo.ipynb")]) := by
  have h := (walker_first_match_precedence (fun _ _ => true) "" []
    "executed_foo.ipynb" outExecutor (fun _ => sampleNb) true false false
    true ConverterKwargs.default sampleFS).2.2.2.2.2.2 (by decide)
  simpa using h

/-! Traces of the batch driver hold no convert or append event. -/

theorem link_no_conv (c : NotebookConverter) (fs : FS) :
    ((c.link fs).2).all (fun e => !isConvertOrAppendEv e) = true := by
  simp [NotebookConverter.link, isConvertOrAppendEv]

theorem writeExecuted_no_conv (c : NotebookConverter) (fs : FS)
    (nb : Notebook) :
    ((c.writeExecuted fs nb).2).all (fun e => !isConvertOrAppendEv e)
      = true := by
  by_cases ho : c.overwrite <;>
    simp [NotebookConverter.writeExecuted, ho, isConvertOrAppendEv]

theorem executeRun_no_conv (c : NotebookConverter) (ex : Executor)
    (nb : Notebook) (fs : FS) :
    ((c.executeRun ex nb fs).2).all (fun e => !isConvertOrAppendEv e)
      = true := by
  rw [List.all_eq_true]
  intro e he
  rw [executeRun_snd] at he
  simp only [List.mem_append] at he
  rcases he with ((he | he) | he) | he
  · simp only [List.mem_cons, List.not_mem_nil, or_false] at he
    rcases he with he | he <;> subst he <;> rfl
  · cases hatt : ex (clearOutputs nb) <;> rw [hatt] at he <;>
      simp only [execOutcomeEvents, List.mem_cons, List.not_mem_nil,
        or_false] at he
    rcases he with he | he <;> subst he <;> rfl
  · simp only [List.mem_cons, List.not_mem_nil, or_false] at he
    subst he
    rfl
  · have hw := writeExecuted_no_conv c fs (execOutcomeNb (ex (clearOutputs nb)))
    rw [List.all_eq_true] at hw
    exact hw e he

theorem execute_no_conv (c : NotebookConverter) (ex : Executor)
    (force : Bool) (fs : FS) (r : FS × List Event × FsPath)
    (h : c.execute ex force fs = some r) :
    (r.2.1).all (fun e => !isConvertOrAppendEv e) = true := by
  unfold NotebookConverter.execute at h
  split at h
  next nb hget =>
    dsimp only at h
    split at h
    · obtain rfl := Option.some.inj h
      simp [isConvertOrAppendEv]
    · obtain rfl := Option.some.inj h
      exact executeRun_no_conv _ ex nb fs
  next => exact absurd h (by simp)

theorem unexecute_no_conv (c : NotebookConverter) (fs : FS)
    (r : FS × List Event) (h : c.unexecute fs = some r) :
    (r.2).all (fun e => !isConvertOrAppendEv e) = true := by
  unfold NotebookConverter.unexecute at h
  split at h
  · obtain rfl := Option.some.inj h
    simp [isConvertOrAppendEv]
  · split at h
    next nb =>
      obtain rfl := Option.some.inj h
      simp [isConvertOrAppendEv]
    next => exact absurd h (by simp)

theorem ipynbDispatch_no_conv (ex : Executor)
    (execute force link cleanup : Bool) (kw : ConverterKwargs)
    (root : FsPath) (name : String) (fs : FS) (r : FS × List Event)
    (h : ipynbDispatch ex execute force link cleanup kw root name fs
      = some r) :
    (r.2).all (fun e => !isConvertOrAppendEv e) = true := by
  unfold ipynbDispatch at h
  dsimp only at h
  split at h
  next hopt =>
    exact absurd h (by simp)
  next fs2 ev2 hopt =>
    split at h
    next hopt2 =>
      exact absurd h (by simp)
    next fs3 ev3 hopt2 =>
      obtain rfl := Option.some.inj h
      simp only [List.all_append, Bool.and_eq_true]
      refine ⟨⟨?_, ?_⟩, ?_⟩
      · by_cases hl : link
        · simp only [hl, if_true]
          exact link_no_conv _ fs
        · simp [hl]
      · by_cases he : execute
        · rw [if_pos he] at hopt
          rw [Option.map_eq_some'] at hopt
          obtain ⟨r0, hr0, hr0e⟩ := hopt
          have := execute_no_conv _ ex force _ r0 hr0
          have hev2 : ev2 = r0.2.1 := by
            have := congrArg Prod.snd hr0e
            simpa using this.symm
          rw [hev2]
          exact this
        · rw [if_neg he] at hopt
          obtain heq := Option.some.inj hopt
          have hev2 : ev2 = [] := (congrArg Prod.snd heq).symm
          rw [hev2]
          rfl
      · by_cases hcl : cleanup
        · rw [if_pos hcl] at hopt2
          exact unexecute_no_conv _ _ _ hopt2
        · rw [if_neg hcl] at hopt2
          obtain heq := Option.some.inj hopt2
          have hev3 : ev3 = [] := (congrArg Prod.snd heq).symm
          rw [hev3]
          rfl

theorem pyDispatch_no_conv (ex : Executor) (mat : Materializer)
    (execute force link cleanup : Bool) (kw : ConverterKwargs)
    (root : FsPath) (name : String) (fs : FS) (r : FS × List Event)
    (h : pyDispatch ex mat execute force link cleanup kw root name fs
      = some r) :
    (r.2).all (fun e => !isConvertOrAppendEv e) = true := by
  unfold pyDispatch at h
  dsimp only at h
  split at h
  · split at h
    · obtain rfl := Option.some.inj h
      rfl
    · split at h
      · obtain rfl := Option.some.inj h
        rfl
      · obtain rfl := Option.some.inj h
        rfl
  · split at h
    next hopt =>
      exact absurd h (by simp)
    next fs3 ev3 hopt =>
      obtain rfl := Option.some.inj h
      simp only [List.all_cons, List.all_append, Bool.and_eq_true]
      refine ⟨rfl, ?_, ?_⟩
      · by_cases hl : link
        · simp only [hl, if_true]
          exact link_no_conv _ _
        · simp [hl]
      · by_cases he : execute
        · rw [if_pos he] at hopt
          rw [Option.map_eq_some'] at hopt
          obtain ⟨r0, hr0, hr0e⟩ := hopt
          have := execute_no_conv _ ex force _ r0 hr0
          have hev3 : ev3 = r0.2.1 := by
            have := congrArg Prod.snd hr0e
            simpa using this.symm
          rw [hev3]
          exact this
        · rw [if_neg he] at hopt
          obtain heq := Option.some.inj hopt
          have hev3 : ev3 = [] := (congrArg Prod.snd heq).symm
          rw [hev3]
          rfl

theorem walkStep_no_conv (matcher : PatternMatcher) (ex : Executor)
    (mat : Materializer) (execute force link cleanup : Bool)
    (pattern : String) (kw : ConverterKwargs) (root : FsPath) (name : String)
    (fs : FS) (r : FS × List Event)
    (h : walkStep matcher ex mat execute force link cleanup pattern kw root
      name fs = some r) :
    (r.2).all (fun e => !isConvertOrAppendEv e) = true := by
  unfold walkStep at h
  dsimp only at h
  split at h
  case _ =>
    split at h <;> obtain rfl := Option.some.inj h <;> rfl
  case _ =>
    split at h <;> obtain rfl := Option.some.inj h <;> rfl
  case _ =>
    split at h <;> obtain rfl := Option.some.inj h <;> rfl
  case _ =>
    split at h <;> obtain rfl := Option.some.inj h <;> rfl
  case _ matched =>
    split at h
    · exact ipynbDispatch_no_conv ex execute force link cleanup kw root name
        fs r h
    · obtain rfl := Option.some.inj h
      rfl
  case _ matched =>
    split at h
    · exact pyDispatch_no_conv ex mat execute force link cleanup kw root name
        fs r h
    · obtain rfl := Option.some.inj h
      rfl
  case _ =>
    obtain rfl := Option.some.inj h
    rfl

theorem runWalk_no_conv (matcher : PatternMatcher) (ex : Executor)
    (mat : Materializer) (execute force link cleanup : Bool)
    (pattern : String) (kw : ConverterKwargs)
    (files : List (FsPath × String)) (fs : FS) (r : FS × List Event)
    (h : runWalk matcher ex mat execute force link cleanup pattern kw files fs
      = some r) :
    (r.2).all (fun e => !isConvertOrAppendEv e) = true := by
  induction files generalizing fs r with
  | nil =>
    unfold runWalk at h
    obtain rfl := Option.some.inj h
    rfl
  | cons f rest ih =>
    obtain ⟨root, name⟩ := f
    unfold runWalk at h
    split at h
    next hs =>
      exact absurd h (by simp)
    next fs1 ev1 hs =>
      split at h
      next hr =>
        exact absurd h (by simp)
      next fs2 ev2 hr =>
        obtain rfl := Option.some.inj h
        simp only [List.all_append, Bool.and_eq_true]
        exact ⟨walkStep_no_conv matcher ex mat execute force link cleanup
          pattern kw root name fs (fs1, ev1) hs, ih fs1 (fs2, ev2) hr⟩

theorem process_no_conv (matcher : PatternMatcher) (ex : Executor)
    (mat : Materializer) (input : NbInput)
    (execute force link cleanup : Bool) (pattern : String)
    (rst colab : Bool) (kw : ConverterKwargs) (fs : FS) (r : FS × List Event)
    (h : process_notebooks matcher ex mat input execute force link cleanup
      pattern rst colab kw fs = some r) :
    (r.2).all (fun e => !isConvertOrAppendEv e) = true := by
  cases input with
  | dir files =>
    exact runWalk_no_conv matcher ex mat execute force link cleanup pattern
      kw files fs r h
  | file d n =>
    unfold process_notebooks at h
    dsimp only at h
    split at h
    · rw [Option.map_eq_some'] at h
      obtain ⟨r0, hr0, hr0e⟩ := h
      have := execute_no_conv _ ex force _ r0 hr0
      have hev : r.2 = r0.2.1 := (congrArg Prod.snd hr0e).symm
      rw [hev]
      exact this
    · split at h
      · exact unexecute_no_conv _ _ _ h
      · obtain rfl := Option.some.inj h
        rfl

/-- Claim C10: two invocations of process_notebooks differing only in the
rst and colab arguments behave identically (the parameters are never
consulted), and no trace of process_notebooks ever holds a convert() or
append() event — the entry point never invokes either operation. -/
theorem rst_colab_have_no_effect (matcher : PatternMatcher) (ex : Executor)
    (mat : Materializer) (input : NbInput)
    (execute force link cleanup : Bool) (pattern : String)
    (rst1 colab1 rst2 colab2 : Bool) (kw : ConverterKwargs) (fs : FS) :
    (process_notebooks matcher ex mat input execute force link cleanup
        pattern rst1 colab1 kw fs
      = process_notebooks matcher ex mat input execute force link cleanup
        pattern rst2 colab2 kw fs) ∧
    (∀ fs1 evs, process_notebooks matcher ex mat input execute force link
        cleanup pattern rst1 colab1 kw fs = some (fs1, evs) →
      evs.all (fun e => !isConvertOrAppendEv e) = true) :=
  ⟨rfl, fun fs1 evs h => process_no_conv matcher ex mat input execute force
    link cleanup pattern rst1 colab1 kw fs (fs1, evs) h⟩

/-- Witness for C10: a concrete run with opposite rst and colab values
gives the same result, whose trace holds no convert or append event. -/
theorem rst_colab_have_no_effect_witness :
    (process_notebooks (fun _ _ => true) outExecutor (fun _ => sampleNb)
        (NbInput.file ["d"] "a.ipynb") true false false false "" true false
        ConverterKwargs.default sampleFS
      = process_notebooks (fun _ _ => true) outExecutor (fun _ => sampleNb)
        (NbInput.file ["d"] "a.ipynb") true false false false "" false true
        ConverterKwargs.default sampleFS) ∧
    (List.all
      [Event.logInfo "Executing notebook a.ipynb in d",
       Event.executorCall,
       Event.logInfo "Writing executed notebook to d/a.ipynb",
       Event.writeFile ["d", "executed_a.ipynb"],
       Event.copyFile ["d", "executed_a.ipynb"] ["d", "a.ipynb"],
       Event.removeFile ["d", "executed_a.ipynb"]]
      (fun e => !isConvertOrAppendEv e) = true) :=
  ⟨(rst_colab_have_no_effect (fun _ _ => true) outExecutor (fun _ => sampleNb)
      (NbInput.file ["d"] "a.ipynb") true false false false "" true false
      false true ConverterKwargs.default sampleFS).1,
   (rst_colab_have_no_effect (fun _ _ => true) outExecutor (fun _ => sampleNb)
      (NbInput.file ["d"] "a.ipynb") true false false false "" true false
      false true ConverterKwargs.default sampleFS).2
     [(["d", "a.ipynb"], FileData.nbFile
        { cells := [{ source := "x = 1", outputs := ["out"] }],
          metadata := { docs_executed := some "executed",
                        nbsphinxExecuteNever := false } }),
      (["d", "a.ipynb"], FileData.nbFile
        { cells := [{ source := "x = 1", outputs := [] }],
          metadata := { docs_executed := none,
                        nbsphinxExecuteNever := false } })]
     [Event.logInfo "Executing notebook a.ipynb in d",
      Event.executorCall,
      Event.logInfo "Writing executed notebook to d/a.ipynb",
      Event.writeFile ["d", "executed_a.ipynb"],
      Event.copyFile ["d", "executed_a.ipynb"] ["d", "a.ipynb"],
      Event.removeFile ["d", "executed_a.ipynb"]] (by decide)⟩
